import Mathlib

/-!
Verification development for the two-phase parallel deck generator
(`src/prompts/parallel-orchestrator.py`).

The Python module is shallowly embedded below.  Pure text manipulation
(regex scans, string assembly) is translated into executable functions on
`List Char` / `String`; the external generation service is abstracted as a
function argument returning `Except` (the service either yields a list of
response parts or raises an error message); wall-clock readings are passed
in as rational timestamps; the nondeterministic completion order of the
thread pool is passed in as an explicit permutation of the submitted
indices.
-/

set_option maxHeartbeats 1000000
set_option maxRecDepth 100000
set_option linter.unusedVariables false

namespace Deckr

/-! ### Character-level utilities (Python `str` idioms) -/

/-- Python `str.strip()`: remove whitespace from both ends. -/
def pyStrip (l : List Char) : List Char :=
  ((l.dropWhile Char.isWhitespace).reverse.dropWhile Char.isWhitespace).reverse

/-- Value of a run of decimal digits, as Python `int()` reads it. -/
def digitsToNat (l : List Char) : Nat :=
  l.foldl (fun acc c => 10 * acc + (c.toNat - 48)) 0

/-- Bool test that `pat` occurs literally at the head of `s`. -/
def litMatch : List Char → List Char → Bool
  | [], _ => true
  | _ :: _, [] => false
  | a :: pat, b :: s => a == b && litMatch pat s

/-! ### The brief-header marker `## SLIDE \d+ BRIEF:`

`parse_slide_briefs` uses the raw pattern
`(## SLIDE \d+ BRIEF:.*?)(?=## SLIDE \d+ BRIEF:|## NEXT STEPS|$)`
with `re.DOTALL` and `re.findall`.  The marker is the literal `## SLIDE `
followed by one or more digits followed by the literal ` BRIEF:`.  `\d+` is
greedy, and because ` BRIEF:` starts with a non-digit, backtracking inside
the digit run can never create a match that the greedy run misses, so the
maximal digit run (`takeWhile isDigit`) is the regex behaviour. -/

/-- The literal `## SLIDE ` opening the marker. -/
def markerHead : List Char := ['#', '#', ' ', 'S', 'L', 'I', 'D', 'E', ' ']

/-- The literal ` BRIEF:` closing the marker. -/
def briefTail : List Char := [' ', 'B', 'R', 'I', 'E', 'F', ':']

/-- The literal `## NEXT STEPS` terminal marker. -/
def nextStepsMark : List Char :=
  ['#', '#', ' ', 'N', 'E', 'X', 'T', ' ', 'S', 'T', 'E', 'P', 'S']

/-- If `s` begins with the brief-header marker `## SLIDE \d+ BRIEF:`, return
the declared number `N` together with the length of the marker text. -/
def markerAt (s : List Char) : Option (Nat × Nat) :=
  if litMatch markerHead s then
    let rest := s.drop 9
    let ds := rest.takeWhile Char.isDigit
    if ds = [] then none
    else if litMatch briefTail (rest.drop ds.length) then
      some (digitsToNat ds, 9 + ds.length + 7)
    else none
  else none

/-- A position where the lookahead `(?=## SLIDE \d+ BRIEF:|## NEXT STEPS|$)`
of `slide_pattern` succeeds (the `$` alternative is the end of the scan). -/
def boundaryAt (s : List Char) : Bool :=
  (markerAt s).isSome || litMatch nextStepsMark s

/-- Offset of the first boundary position in `s` (`s.length` when none). -/
def firstBoundary : List Char → Nat
  | [] => 0
  | c :: r => if boundaryAt (c :: r) then 0 else firstBoundary r + 1

theorem firstBoundary_le_length (l : List Char) : firstBoundary l ≤ l.length := by
  induction l with
  | nil => simp [firstBoundary]
  | cons c r ih =>
    by_cases h : boundaryAt (c :: r) = true
    · simp [firstBoundary, h]
    · have h' : boundaryAt (c :: r) = false := by simpa using h
      simp only [firstBoundary, h', Bool.false_eq_true, if_false, List.length_cons]
      omega

theorem litMatch_iff {pat s : List Char} : litMatch pat s = true ↔ ∃ t, s = pat ++ t := by
  induction pat generalizing s with
  | nil => simp [litMatch]
  | cons a pat ih =>
    cases s with
    | nil => simp [litMatch]
    | cons b s =>
      simp only [litMatch, Bool.and_eq_true, beq_iff_eq, ih, List.cons_append,
        List.cons.injEq]
      constructor
      · rintro ⟨rfl, t, rfl⟩; exact ⟨t, rfl, rfl⟩
      · rintro ⟨t, rfl, rfl⟩; exact ⟨rfl, t, rfl⟩

theorem markerAt_decomp {s : List Char} {n len : Nat} (h : markerAt s = some (n, len)) :
    ∃ ds w, s = markerHead ++ (ds ++ (briefTail ++ w)) ∧ ds ≠ [] ∧
      (∀ c ∈ ds, c.isDigit) ∧ len = 16 + ds.length ∧ n = digitsToNat ds := by
  unfold markerAt at h
  by_cases h1 : litMatch markerHead s = true
  · rw [if_pos h1] at h
    obtain ⟨u, rfl⟩ := litMatch_iff.mp h1
    have hdropu : (markerHead ++ u).drop 9 = u := List.drop_left' rfl
    rw [hdropu] at h
    set ds := u.takeWhile Char.isDigit with hds
    by_cases h2 : ds = []
    · rw [if_pos h2] at h; exact absurd h (by simp)
    · rw [if_neg h2] at h
      have hsplit : ds ++ u.dropWhile Char.isDigit = u :=
        List.takeWhile_append_dropWhile Char.isDigit u
      have hdropds : u.drop ds.length = u.dropWhile Char.isDigit := by
        conv_lhs => rw [← hsplit]
        exact List.drop_left' rfl
      rw [hdropds] at h
      by_cases h3 : litMatch briefTail (u.dropWhile Char.isDigit) = true
      · rw [if_pos h3] at h
        obtain ⟨w, hw⟩ := litMatch_iff.mp h3
        simp only [Option.some.injEq, Prod.mk.injEq] at h
        obtain ⟨hn, hlen⟩ := h
        rw [← hds] at hn hlen
        refine ⟨ds, w, ?_, h2, ?_, by omega, hn.symm⟩
        · rw [← hsplit, hw]
        · intro c hc; exact List.mem_takeWhile_imp hc
      · rw [if_neg h3] at h; exact absurd h (by simp)
  · rw [if_neg h1] at h; exact absurd h (by simp)

theorem markerAt_pos {s : List Char} {n len : Nat} (h : markerAt s = some (n, len)) :
    0 < len := by
  obtain ⟨ds, w, -, -, -, hlen, -⟩ := markerAt_decomp h
  omega

theorem markerAt_le_length {s : List Char} {n len : Nat} (h : markerAt s = some (n, len)) :
    len ≤ s.length := by
  obtain ⟨ds, w, rfl, -, -, hlen, -⟩ := markerAt_decomp h
  simp only [List.length_append, markerHead, briefTail, List.length_cons, List.length_nil]
  omega

/-! ### `parse_slide_briefs`

`re.findall(slide_pattern, master_output, re.DOTALL)` tries the pattern at
each position from left to right and resumes after each match.  A match
starts exactly at a marker occurrence; its lazy tail `.*?` extends to the
first position (at or after the end of the marker) where the lookahead
succeeds, and scanning resumes at that position.  From each match the code
re-extracts the declared number by an `re.search` for `## SLIDE (\d+) BRIEF:`
(which finds the leading marker of the match itself) and stores the match
`.strip()`ped.  The only deviation of this embedding from the Python regex
is the `$` alternative of the lookahead: the Python `$` can also match just
before a single newline that terminates the document, in which case the raw
match ends one character earlier — `.strip()` removes that trailing newline
either way, so the produced briefs are identical. -/

/-- One step of the `findall` scan: skip until a marker matches; on a match
emit the declared number and the stripped match text, and resume at the
first boundary after the marker. -/
def scanBriefs : List Char → List (Nat × List Char)
  | [] => []
  | c :: r =>
    match h : markerAt (c :: r) with
    | some (n, len) =>
      let fb := firstBoundary ((c :: r).drop len)
      (n, pyStrip ((c :: r).take (len + fb))) :: scanBriefs (((c :: r).drop len).drop fb)
    | none => scanBriefs r
termination_by s => s.length
decreasing_by
  · have hp : 0 < len := markerAt_pos h
    simp only [List.length_drop, List.length_cons]
    omega
  · simp

/-- One extracted brief, as the dict with keys slide_number and brief. -/
structure SlideBrief where
  slide_number : Nat
  brief : String
deriving DecidableEq, Repr

/-- Embeds `parse_slide_briefs` from parallel-orchestrator.py. -/
def parse_slide_briefs (master_output : String) : List SlideBrief :=
  (scanBriefs master_output.toList).map (fun p => ⟨p.1, String.mk p.2⟩)

/-! ### Positional reading of the extraction (the wording of the spec)

The spec describes `parse_slide_briefs` positionally: one brief per
occurrence of the marker, ordered by scan position, each spanning from its
marker up to (but not including) the next marker / next-steps marker / end
of document, and carrying the declared `N`. -/

/-- All positions of `l` at which the brief-header marker occurs, in scan
order. -/
def markerPositions (l : List Char) : List Nat :=
  (List.range l.length).filter (fun p => (markerAt (l.drop p)).isSome)

/-- The first boundary position at or after position `q` (`l.length` if
there is none). -/
def boundaryFrom (l : List Char) (q : Nat) : Nat :=
  q + firstBoundary (l.drop q)

/-- Modelled from the spec: the brief declared at marker position `p` — the
declared number, and the text from the marker up to (but not including) the
next boundary, which the code stores `.strip()`ped (the span starts with
`#`, so only trailing whitespace is ever trimmed). -/
def briefPairAt (l : List Char) (p : Nat) : Nat × List Char :=
  match markerAt (l.drop p) with
  | some (n, len) =>
    (n, pyStrip ((l.drop p).take (boundaryFrom l (p + len) - p)))
  | none => (0, [])

/-- Modelled from the spec: the whole brief list, read positionally. -/
def specSlideBriefs (master_output : String) : List SlideBrief :=
  (markerPositions master_output.toList).map
    (fun p => ⟨(briefPairAt master_output.toList p).1,
               String.mk (briefPairAt master_output.toList p).2⟩)

/-! ### `run_slide_agent` (Phase 2, one unit)

The `client.models.generate_content` call either returns a response whose
parts are reasoning (`part.thought`) or answer segments, or raises; it is
abstracted as `gen : String → Except String (List Part)` (the error message
is `str(e)`).  `t0`/`t1` are the two `time.time()` readings around the
call. -/

/-- One response part of the external generation service. -/
structure Part where
  thought : Bool
  text : String
deriving DecidableEq, Repr

/-- The per-unit result dict built by `run_slide_agent` (and consumed by the
dispatcher and the assembler).  The success dict carries no `error` key and
the failure dict maps `output` to `None`; both are modelled with
`Option`. -/
structure UnitResult where
  slide_number : Nat
  output : Option String
  elapsed_time : ℚ
  success : Bool
  error : Option String
deriving DecidableEq, Repr

/-- The f-string prompt built by `run_slide_agent`. -/
def build_slide_prompt (slide_number : Nat)
    (brand_and_design slide_brief slide_template : String) : String :=
  "# SLIDE SPECIFICATION TASK\n\nYou are generating the specification for SLIDE "
    ++ toString slide_number ++ ".\n\n---\n\n" ++ brand_and_design ++ "\n\n---\n\n"
    ++ slide_brief ++ "\n\n---\n\n" ++ slide_template ++ "\n"

/-- Embeds `run_slide_agent` from parallel-orchestrator.py: build the prompt, call
the service inside `try`, join the non-reasoning parts with the two-newline
separator, and convert an exception into a failure dict carrying `str(e)`. -/
def run_slide_agent (slide_number : Nat) (slide_brief brand_and_design slide_template : String)
    (gen : String → Except String (List Part)) (t0 t1 : ℚ) : UnitResult :=
  match gen (build_slide_prompt slide_number brand_and_design slide_brief slide_template) with
  | Except.ok parts =>
      { slide_number := slide_number
        output := some (String.intercalate "\n\n"
          ((parts.filter (fun p => !p.thought)).map Part.text))
        elapsed_time := t1 - t0
        success := true
        error := none }
  | Except.error e =>
      { slide_number := slide_number
        output := none
        elapsed_time := t1 - t0
        success := false
        error := some e }

/-! ### `run_parallel_slide_agents` (the dispatcher)

The thread pool submits one `run_slide_agent` task per brief (the
`future_to_slide` dict has one distinct future per submission, even for
duplicate slide numbers), appends each result in completion order as
`as_completed` yields it, and finally sorts the collected list in place by
`slide_number` (the stable ascending Python sort; modelled by the stable
ascending `List.insertionSort`).  The
per-unit service call and clock readings are indexed by the submission
index `i`; the nondeterministic completion order is the explicit argument
`completion_order`, a permutation of the submission indices. -/

/-- The list of results the submitted tasks produce, one per brief, indexed
by submission position. -/
def submittedResults (slide_briefs : List SlideBrief) (brand_and_design slide_template : String)
    (gen : Nat → String → Except String (List Part)) (clock : Nat → ℚ × ℚ) :
    List UnitResult :=
  slide_briefs.enum.map (fun ib =>
    run_slide_agent ib.2.slide_number ib.2.brief brand_and_design slide_template
      (gen ib.1) (clock ib.1).1 (clock ib.1).2)

/-- Embeds `run_parallel_slide_agents` from parallel-orchestrator.py. -/
def run_parallel_slide_agents (slide_briefs : List SlideBrief)
    (brand_and_design slide_template : String)
    (gen : Nat → String → Except String (List Part)) (clock : Nat → ℚ × ℚ)
    (completion_order : List Nat) : List UnitResult :=
  let submitted := submittedResults slide_briefs brand_and_design slide_template gen clock
  let collected := completion_order.filterMap (fun i => submitted.get? i)
  List.insertionSort (fun a b => a.slide_number ≤ b.slide_number) collected

/-- Python `max` over a list (raises on `[]`, hence `Option`). -/
def pyMax : List ℚ → Option ℚ
  | [] => none
  | x :: xs => some (xs.foldl max x)

/-- The `parallel_speedup` statistic computed (identically) in
`save_results` and in `main`: the `sum` of the elapsed_time values of
`slide_results` divided by their `max`. -/
def parallel_speedup (slide_results : List UnitResult) : Option ℚ :=
  match pyMax (slide_results.map (fun r => r.elapsed_time)) with
  | none => none
  | some m => some ((slide_results.map (fun r => r.elapsed_time)).sum / m)

/-! ### Section extraction and `assemble_final_document`

All the section regexes have the shape of an `re.search` (with `re.DOTALL`)
for the HEADER literal, then `(.*?)`, then a lookahead for STOPPER or `\Z`:
the first occurrence of the header literal starts the match, and the lazy
capture group runs to the first following occurrence of the stopper literal
or to the end; the code stores `.group(1).strip()` (or `""` with no match).
(`extract_brand_and_design_system` writes `$` instead of `\Z`; as for
`parse_slide_briefs`, `.strip()` erases the difference.) -/

/-- Position of the first occurrence of `pat` in `l`. -/
def findSub (pat : List Char) : List Char → Option Nat
  | [] => if litMatch pat [] then some 0 else none
  | c :: r =>
    if litMatch pat (c :: r) then some 0
    else (findSub pat r).map (· + 1)

/-- The section-extraction idiom: stripped capture between the first
occurrence of `header` and the first following occurrence of `stopper` (or
the end), `[]` when the header does not occur. -/
def sectionCapture (doc header stopper : List Char) : List Char :=
  match findSub header doc with
  | none => []
  | some i =>
    let after := (doc.drop i).drop header.length
    let j := match findSub stopper after with
             | some j => j
             | none => after.length
    pyStrip (after.take j)

/-- Embeds `extract_brand_and_design_system` from parallel-orchestrator.py. -/
def extract_brand_and_design_system (master_output : String) : String :=
  let l := master_output.toList
  let brand_section :=
    sectionCapture l ("## BRAND RESEARCH".toList) ("## DECK ARCHITECTURE".toList)
  let design_section :=
    sectionCapture l ("## DESIGN SYSTEM".toList) ("## SLIDE BRIEFS".toList)
  "## BRAND GUIDELINES\n\n" ++ String.mk brand_section
    ++ "\n\n---\n\n## DESIGN SYSTEM\n\n" ++ String.mk design_section ++ "\n"

/-- Python f-string rendering of a value that may be `None`. -/
def pyShowOpt : Option String → String
  | some s => s
  | none => "None"

/-- The block `assemble_final_document` appends for one unit result: the
raw output for a success, a delimited error block for a failure (with the
`result.get` fallback text, Failed to generate, when the error key is
absent). -/
def renderBlock (r : UnitResult) : String :=
  if r.success then "\n" ++ pyShowOpt r.output ++ "\n\n"
  else "\n### SLIDE " ++ toString r.slide_number ++ ": ERROR\n\n**Error:** "
    ++ r.error.getD "Failed to generate" ++ "\n\n---\n\n"

/-- The fixed head of the final document: the template with the four
sections extracted from the master output. -/
def docHead (master_output : String) : String :=
  let l := master_output.toList
  let exec_summary := String.mk (sectionCapture l ("## EXECUTIVE SUMMARY".toList) ("##".toList))
  let brand_research :=
    String.mk (sectionCapture l ("## BRAND RESEARCH".toList) ("## DECK ARCHITECTURE".toList))
  let architecture :=
    String.mk (sectionCapture l ("## DECK ARCHITECTURE".toList) ("## DESIGN SYSTEM".toList))
  let design_system :=
    String.mk (sectionCapture l ("## DESIGN SYSTEM".toList) ("## SLIDE BRIEFS".toList))
  "# COMPLETE SLIDE DECK SPECIFICATION\n## Generated with Parallel Agent Architecture\n\n---\n\n## EXECUTIVE SUMMARY\n\n"
    ++ exec_summary ++ "\n\n---\n\n## BRAND RESEARCH\n\n" ++ brand_research
    ++ "\n\n---\n\n## DECK ARCHITECTURE\n\n" ++ architecture
    ++ "\n\n---\n\n## DESIGN SYSTEM\n\n" ++ design_system
    ++ "\n\n---\n\n## DETAILED SLIDE SPECIFICATIONS\n\n"

/-- The fixed production-notes closing section appended after the blocks. -/
def productionNotes : String :=
  "\n---\n\n## PRODUCTION NOTES\n\nThis specification was generated using a parallel agent architecture:\n- **Phase 1:** Master planning agent created brand research, architecture, and design system\n- **Phase 2:** Individual slide agents generated detailed specifications in parallel\n- **Result:** Complete, consistent, designer-ready specifications\n\n### File Setup\n- Dimensions: 1920 x 1080 (16:9)\n- Resolution: 72 DPI (screen) or 300 DPI (print)\n- Safe Zone: 100px from all edges\n\n### Software Recommendations\n- PowerPoint, Keynote, or Google Slides\n- Figma/Sketch for design mockups\n\n### Export Specifications\n- Format: PDF (high quality) or PPTX (editable)\n- Fonts: Embed fonts\n- File naming: [CompanyName]_[PresentationType]_[Date]_v[Version]\n\n---\n\n**Generated with Gemini 2.5 Pro Parallel Architecture**\n"

/-- Embeds `assemble_final_document` from parallel-orchestrator.py. -/
def assemble_final_document (master_output : String) (slide_results : List UnitResult) :
    String :=
  (slide_results.foldl (fun acc r => acc ++ renderBlock r) (docHead master_output))
    ++ productionNotes

/-! ### The orchestrator tail (`main` after Phase 1) -/

/-- Whether the brief-header marker occurs anywhere in `l`. -/
def hasMarker : List Char → Bool
  | [] => false
  | c :: r => (markerAt (c :: r)).isSome || hasMarker r

/-- The tail of `main()` after the master-planning call: extract the briefs,
abort (`return`) when none were found, otherwise extract the shared
brand/design context, dispatch Phase 2 and assemble the final document. -/
def orchestrate_after_planning (master_output slide_template : String)
    (gen : Nat → String → Except String (List Part)) (clock : Nat → ℚ × ℚ)
    (completion_order : List Nat) : Option (List UnitResult × String) :=
  let slide_briefs := parse_slide_briefs master_output
  if slide_briefs.isEmpty then none
  else
    let brand_and_design := extract_brand_and_design_system master_output
    let slide_results := run_parallel_slide_agents slide_briefs brand_and_design
      slide_template gen clock completion_order
    some (slide_results, assemble_final_document master_output slide_results)

/-- The number of Phase-2 generation calls `main()` makes: zero on the
zero-brief abort path, otherwise one per brief (the pool submits one
`run_slide_agent` per brief and each makes exactly one
`generate_content` call). -/
def phase2_call_count (master_output : String) : Nat :=
  let slide_briefs := parse_slide_briefs master_output
  if slide_briefs.isEmpty then 0 else slide_briefs.length

/-! ### Supporting lemmas -/

theorem scanBriefs_nil : scanBriefs [] = [] := by
  rw [scanBriefs]

theorem scanBriefs_cons_none {c : Char} {r : List Char} (hm : markerAt (c :: r) = none) :
    scanBriefs (c :: r) = scanBriefs r := by
  rw [scanBriefs]
  split
  · rename_i n len heq
    rw [hm] at heq; cases heq
  · rfl

theorem scanBriefs_cons_some {c : Char} {r : List Char} {n len : Nat}
    (hm : markerAt (c :: r) = some (n, len)) :
    scanBriefs (c :: r) =
      (n, pyStrip ((c :: r).take (len + firstBoundary ((c :: r).drop len)))) ::
        scanBriefs (((c :: r).drop len).drop (firstBoundary ((c :: r).drop len))) := by
  rw [scanBriefs]
  split
  · rename_i n' len' heq
    rw [hm] at heq
    cases heq
    rfl
  · rename_i heq
    rw [hm] at heq; cases heq

theorem scanBriefs_eq_nil_of_no_marker {l : List Char} (h : hasMarker l = false) :
    scanBriefs l = [] := by
  induction l with
  | nil => exact scanBriefs_nil
  | cons c r ih =>
    simp only [hasMarker, Bool.or_eq_false_iff] at h
    have hm : markerAt (c :: r) = none := by
      cases hmm : markerAt (c :: r) with
      | none => rfl
      | some v => rw [hmm] at h; simp at h
    rw [scanBriefs_cons_none hm]
    exact ih h.2

theorem elapsed_run_slide_agent (slide_number : Nat)
    (slide_brief brand_and_design slide_template : String)
    (gen : String → Except String (List Part)) (t0 t1 : ℚ) :
    (run_slide_agent slide_number slide_brief brand_and_design slide_template gen t0 t1).elapsed_time
      = t1 - t0 := by
  unfold run_slide_agent
  cases gen (build_slide_prompt slide_number brand_and_design slide_brief slide_template) <;> rfl

theorem filterMap_get?_range {α : Type} (xs : List α) :
    (List.range xs.length).filterMap (fun i => xs.get? i) = xs := by
  induction xs with
  | nil => simp
  | cons x xs ih =>
    rw [List.length_cons, List.range_succ_eq_map, List.filterMap_cons]
    have h0 : (x :: xs).get? 0 = some x := rfl
    rw [h0, List.filterMap_map]
    have hc : ((fun i => (x :: xs).get? i) ∘ Nat.succ) = (fun i => xs.get? i) := by
      funext i; rfl
    rw [hc, ih]

theorem collected_perm {α : Type} {xs : List α} {order : List Nat}
    (h : order.Perm (List.range xs.length)) :
    (order.filterMap (fun i => xs.get? i)).Perm xs := by
  have h1 := List.Perm.filterMap (fun i => xs.get? i) h
  rw [filterMap_get?_range] at h1
  exact h1

theorem submittedResults_length (slide_briefs : List SlideBrief)
    (brand_and_design slide_template : String)
    (gen : Nat → String → Except String (List Part)) (clock : Nat → ℚ × ℚ) :
    (submittedResults slide_briefs brand_and_design slide_template gen clock).length
      = slide_briefs.length := by
  simp [submittedResults]

theorem run_parallel_perm (slide_briefs : List SlideBrief)
    (brand_and_design slide_template : String)
    (gen : Nat → String → Except String (List Part)) (clock : Nat → ℚ × ℚ)
    (completion_order : List Nat)
    (horder : completion_order.Perm (List.range slide_briefs.length)) :
    (run_parallel_slide_agents slide_briefs brand_and_design slide_template gen clock
        completion_order).Perm
      (submittedResults slide_briefs brand_and_design slide_template gen clock) := by
  unfold run_parallel_slide_agents
  refine (List.perm_insertionSort _ _).trans ?_
  refine collected_perm ?_
  rw [submittedResults_length]
  exact horder

theorem run_parallel_sorted (slide_briefs : List SlideBrief)
    (brand_and_design slide_template : String)
    (gen : Nat → String → Except String (List Part)) (clock : Nat → ℚ × ℚ)
    (completion_order : List Nat) :
    List.Sorted (· ≤ ·)
      ((run_parallel_slide_agents slide_briefs brand_and_design slide_template gen clock
          completion_order).map (fun r => r.slide_number)) := by
  rw [List.Sorted, List.pairwise_map]
  unfold run_parallel_slide_agents
  haveI htotal : IsTotal UnitResult (fun a b => a.slide_number ≤ b.slide_number) :=
    ⟨fun a b => Nat.le_total a.slide_number b.slide_number⟩
  haveI htrans : IsTrans UnitResult (fun a b => a.slide_number ≤ b.slide_number) :=
    ⟨fun a b c hab hbc => Nat.le_trans hab hbc⟩
  exact List.sorted_insertionSort (fun a b : UnitResult => a.slide_number ≤ b.slide_number)
    ((completion_order.filterMap (fun i =>
      (submittedResults slide_briefs brand_and_design slide_template gen clock).get? i)))

theorem string_foldl_append (l : List String) (a b : String) :
    l.foldl (· ++ ·) (a ++ b) = a ++ l.foldl (· ++ ·) b := by
  induction l generalizing b with
  | nil => simp
  | cons x xs ih =>
    simp only [List.foldl_cons]
    rw [String.append_assoc, ih]

theorem string_join_cons (x : String) (l : List String) :
    String.join (x :: l) = x ++ String.join l := by
  show (x :: l).foldl (· ++ ·) "" = x ++ l.foldl (· ++ ·) ""
  simp only [List.foldl_cons]
  rw [String.empty_append]
  conv_lhs => rw [show x = x ++ "" from (String.append_empty x).symm]
  rw [string_foldl_append]

theorem foldl_append_renderBlock (rs : List UnitResult) (init : String) :
    rs.foldl (fun acc r => acc ++ renderBlock r) init
      = init ++ String.join (rs.map renderBlock) := by
  induction rs generalizing init with
  | nil => simp [String.join]
  | cons r rs ih =>
    simp only [List.foldl_cons, List.map_cons]
    rw [ih, string_join_cons, String.append_assoc]

theorem foldl_max_spec (xs : List ℚ) (x : ℚ) :
    (xs.foldl max x = x ∨ xs.foldl max x ∈ xs) ∧ x ≤ xs.foldl max x ∧
      ∀ y ∈ xs, y ≤ xs.foldl max x := by
  induction xs generalizing x with
  | nil => simp
  | cons y ys ih =>
    obtain ⟨hmem, hle, hbound⟩ := ih (max x y)
    refine ⟨?_, ?_, ?_⟩
    · simp only [List.foldl_cons, List.mem_cons]
      rcases hmem with h | h
      · rcases max_choice x y with hxy | hxy
        · left; rw [h, hxy]
        · right; left; rw [h, hxy]
      · right; right; exact h
    · simp only [List.foldl_cons]
      exact le_trans (le_max_left x y) hle
    · intro z hz
      simp only [List.foldl_cons]
      rcases List.mem_cons.mp hz with rfl | hz'
      · exact le_trans (le_max_right x z) hle
      · exact hbound z hz'

theorem pyMax_eq_some_iff {l : List ℚ} {m : ℚ} :
    pyMax l = some m ↔ m ∈ l ∧ ∀ y ∈ l, y ≤ m := by
  cases l with
  | nil => simp [pyMax]
  | cons x xs =>
    simp only [pyMax, Option.some.injEq]
    constructor
    · rintro rfl
      obtain ⟨hmem, hle, hbound⟩ := foldl_max_spec xs x
      refine ⟨?_, ?_⟩
      · rcases hmem with h | h
        · rw [h]; exact List.mem_cons_self x xs
        · exact List.mem_cons_of_mem x h
      · intro y hy
        rcases List.mem_cons.mp hy with rfl | hy'
        · exact hle
        · exact hbound y hy'
    · rintro ⟨hm, hbound⟩
      obtain ⟨hmem, hle, hbound'⟩ := foldl_max_spec xs x
      have h1 : xs.foldl max x ≤ m := by
        rcases hmem with h | h
        · rw [h]; exact hbound x (List.mem_cons_self x xs)
        · exact hbound _ (List.mem_cons_of_mem x h)
      have h2 : m ≤ xs.foldl max x := by
        rcases List.mem_cons.mp hm with rfl | hm'
        · exact hle
        · exact hbound' m hm'
      exact le_antisymm h1 h2

theorem pyMax_eq_none_iff {l : List ℚ} : pyMax l = none ↔ l = [] := by
  cases l <;> simp [pyMax]

theorem pyMax_perm {l₁ l₂ : List ℚ} (h : l₁.Perm l₂) : pyMax l₁ = pyMax l₂ := by
  cases h1 : pyMax l₁ with
  | none =>
    rw [pyMax_eq_none_iff] at h1
    subst h1
    rw [(pyMax_eq_none_iff (l := l₂)).mpr h.nil_eq.symm]
  | some m =>
    obtain ⟨hm, hbound⟩ := pyMax_eq_some_iff.mp h1
    exact (pyMax_eq_some_iff.mpr
      ⟨h.mem_iff.mp hm, fun y hy => hbound y (h.mem_iff.mpr hy)⟩).symm

theorem submitted_map_elapsed (slide_briefs : List SlideBrief)
    (brand_and_design slide_template : String)
    (gen : Nat → String → Except String (List Part)) (clock : Nat → ℚ × ℚ) :
    (submittedResults slide_briefs brand_and_design slide_template gen clock).map
        (fun r => r.elapsed_time)
      = (List.range slide_briefs.length).map (fun i => (clock i).2 - (clock i).1) := by
  unfold submittedResults
  rw [List.map_map]
  have hfun : ((fun r : UnitResult => r.elapsed_time) ∘ (fun ib : Nat × SlideBrief =>
      run_slide_agent ib.2.slide_number ib.2.brief brand_and_design slide_template
        (gen ib.1) (clock ib.1).1 (clock ib.1).2))
      = (fun ib : Nat × SlideBrief => (clock ib.1).2 - (clock ib.1).1) := by
    funext ib
    exact elapsed_run_slide_agent _ _ _ _ _ _ _
  rw [hfun]
  have : (fun ib : Nat × SlideBrief => (clock ib.1).2 - (clock ib.1).1)
      = (fun i : Nat => (clock i).2 - (clock i).1) ∘ Prod.fst := rfl
  rw [this, ← List.map_map, List.enum_map_fst]

theorem submitted_get? (slide_briefs : List SlideBrief)
    (brand_and_design slide_template : String)
    (gen : Nat → String → Except String (List Part)) (clock : Nat → ℚ × ℚ)
    (i : Nat) (hi : i < slide_briefs.length) :
    (submittedResults slide_briefs brand_and_design slide_template gen clock).get? i
      = some (run_slide_agent (slide_briefs.get ⟨i, hi⟩).slide_number
          (slide_briefs.get ⟨i, hi⟩).brief brand_and_design slide_template
          (gen i) (clock i).1 (clock i).2) := by
  unfold submittedResults
  rw [List.get?_eq_getElem?, List.getElem?_map, List.getElem?_enum,
    List.getElem?_eq_getElem hi]
  rfl

/-! ### Claim theorems -/

/-- Concrete fixture used by the witnesses below: two briefs, a service
that succeeds on submission index 0 and raises `boom` on index 1, clock
readings `(1, 2 + i)`, completion order `[1, 0]`. -/
def wBriefs : List SlideBrief := [⟨2, "beta brief"⟩, ⟨1, "alpha brief"⟩]

def wGen : Nat → String → Except String (List Part) :=
  fun i _ =>
    if i = 1 then Except.error "boom"
    else Except.ok [⟨true, "thinking"⟩, ⟨false, "OUT-A"⟩]

def wClock : Nat → ℚ × ℚ := fun i => (1, 2 + (i : ℚ))

/-- C1: the dispatcher returns exactly one `UnitResult` per submitted
brief — the returned batch is a permutation of the list of the per-brief
results (one each, never zero, never duplicated), so its length equals the
length of the brief list. -/
theorem batch_has_one_result_per_brief (slide_briefs : List SlideBrief)
    (brand_and_design slide_template : String)
    (gen : Nat → String → Except String (List Part)) (clock : Nat → ℚ × ℚ)
    (completion_order : List Nat)
    (horder : completion_order.Perm (List.range slide_briefs.length)) :
    (run_parallel_slide_agents slide_briefs brand_and_design slide_template gen clock
        completion_order).Perm
      (submittedResults slide_briefs brand_and_design slide_template gen clock) ∧
    (run_parallel_slide_agents slide_briefs brand_and_design slide_template gen clock
        completion_order).length = slide_briefs.length := by
  have hp := run_parallel_perm slide_briefs brand_and_design slide_template gen clock
    completion_order horder
  exact ⟨hp, hp.length_eq.trans (submittedResults_length _ _ _ _ _)⟩

theorem batch_has_one_result_per_brief_witness :
    (([1, 0] : List Nat).Perm (List.range wBriefs.length)) ∧
    ((run_parallel_slide_agents wBriefs "bd" "tmpl" wGen wClock [1, 0]).Perm
        (submittedResults wBriefs "bd" "tmpl" wGen wClock) ∧
      (run_parallel_slide_agents wBriefs "bd" "tmpl" wGen wClock [1, 0]).length
        = wBriefs.length) :=
  ⟨by decide,
   batch_has_one_result_per_brief wBriefs "bd" "tmpl" wGen wClock [1, 0] (by decide)⟩

/-- C2: the batch returned by the dispatcher is sorted in ascending order
of `slide_number`, whatever the completion order of the individual units
was. -/
theorem batch_sorted_by_unit_index (slide_briefs : List SlideBrief)
    (brand_and_design slide_template : String)
    (gen : Nat → String → Except String (List Part)) (clock : Nat → ℚ × ℚ)
    (completion_order : List Nat) :
    List.Sorted (· ≤ ·)
      ((run_parallel_slide_agents slide_briefs brand_and_design slide_template gen clock
          completion_order).map (fun r => r.slide_number)) :=
  run_parallel_sorted slide_briefs brand_and_design slide_template gen clock
    completion_order

/-- C3: an error raised by the generation call of unit `i` is caught inside
`run_slide_agent` and becomes a failed `UnitResult` carrying the message;
the dispatcher still returns a full batch (one result per brief — the error
reaches neither the caller nor any other unit, whose own results are
exactly the ones their own calls produce), and the failed result is in the
batch. -/
theorem unit_error_captured_not_propagated (slide_briefs : List SlideBrief)
    (brand_and_design slide_template : String)
    (gen : Nat → String → Except String (List Part)) (clock : Nat → ℚ × ℚ)
    (completion_order : List Nat) (i : Nat) (e : String)
    (horder : completion_order.Perm (List.range slide_briefs.length))
    (hfail : ∀ p, gen i p = Except.error e) :
    (run_parallel_slide_agents slide_briefs brand_and_design slide_template gen clock
        completion_order).length = slide_briefs.length ∧
    (run_parallel_slide_agents slide_briefs brand_and_design slide_template gen clock
        completion_order).Perm
      (submittedResults slide_briefs brand_and_design slide_template gen clock) ∧
    (∀ hi : i < slide_briefs.length,
      (submittedResults slide_briefs brand_and_design slide_template gen clock).get? i
        = some ⟨(slide_briefs.get ⟨i, hi⟩).slide_number, none,
            (clock i).2 - (clock i).1, false, some e⟩) ∧
    (∀ hi : i < slide_briefs.length,
      (⟨(slide_briefs.get ⟨i, hi⟩).slide_number, none,
          (clock i).2 - (clock i).1, false, some e⟩ : UnitResult)
        ∈ run_parallel_slide_agents slide_briefs brand_and_design slide_template gen
            clock completion_order) := by
  have hp := run_parallel_perm slide_briefs brand_and_design slide_template gen clock
    completion_order horder
  have hget : ∀ hi : i < slide_briefs.length,
      (submittedResults slide_briefs brand_and_design slide_template gen clock).get? i
        = some ⟨(slide_briefs.get ⟨i, hi⟩).slide_number, none,
            (clock i).2 - (clock i).1, false, some e⟩ := by
    intro hi
    rw [submitted_get? slide_briefs brand_and_design slide_template gen clock i hi]
    unfold run_slide_agent
    rw [hfail]
  refine ⟨hp.length_eq.trans (submittedResults_length _ _ _ _ _), hp, hget, ?_⟩
  intro hi
  have hmem : (⟨(slide_briefs.get ⟨i, hi⟩).slide_number, none,
      (clock i).2 - (clock i).1, false, some e⟩ : UnitResult)
      ∈ submittedResults slide_briefs brand_and_design slide_template gen clock := by
    have := hget hi
    exact List.get?_mem this
  exact hp.mem_iff.mpr hmem

theorem unit_error_captured_not_propagated_witness :
    (([1, 0] : List Nat).Perm (List.range wBriefs.length)) ∧
    (∀ p, wGen 1 p = Except.error "boom") ∧
    ((run_parallel_slide_agents wBriefs "bd" "tmpl" wGen wClock [1, 0]).length
        = wBriefs.length ∧
      (run_parallel_slide_agents wBriefs "bd" "tmpl" wGen wClock [1, 0]).Perm
        (submittedResults wBriefs "bd" "tmpl" wGen wClock) ∧
      (∀ hi : 1 < wBriefs.length,
        (submittedResults wBriefs "bd" "tmpl" wGen wClock).get? 1
          = some ⟨(wBriefs.get ⟨1, hi⟩).slide_number, none,
              (wClock 1).2 - (wClock 1).1, false, some "boom"⟩) ∧
      (∀ hi : 1 < wBriefs.length,
        (⟨(wBriefs.get ⟨1, hi⟩).slide_number, none,
            (wClock 1).2 - (wClock 1).1, false, some "boom"⟩ : UnitResult)
          ∈ run_parallel_slide_agents wBriefs "bd" "tmpl" wGen wClock [1, 0])) :=
  ⟨by decide, fun p => rfl,
   unit_error_captured_not_propagated wBriefs "bd" "tmpl" wGen wClock [1, 0] 1 "boom"
     (by decide) (fun p => rfl)⟩

/-- C5: when the planning artifact contains no brief-header marker, the
extractor returns the empty list, `main` aborts before Phase 2 (the
orchestrator tail returns `none`: neither the dispatcher nor the assembler
runs) and zero Phase-2 generation calls are made. -/
theorem zero_briefs_aborts (master_output : String)
    (h : hasMarker master_output.toList = false) :
    parse_slide_briefs master_output = [] ∧
    (∀ slide_template gen clock completion_order,
      orchestrate_after_planning master_output slide_template gen clock completion_order
        = none) ∧
    phase2_call_count master_output = 0 := by
  have hp : parse_slide_briefs master_output = [] := by
    unfold parse_slide_briefs
    rw [scanBriefs_eq_nil_of_no_marker h]
    rfl
  refine ⟨hp, ?_, ?_⟩
  · intro slide_template gen clock completion_order
    simp [orchestrate_after_planning, hp]
  · simp [phase2_call_count, hp]

theorem zero_briefs_aborts_witness :
    (hasMarker ("Planning output with no briefs at all.").toList = false) ∧
    (parse_slide_briefs "Planning output with no briefs at all." = [] ∧
      (∀ slide_template gen clock completion_order,
        orchestrate_after_planning "Planning output with no briefs at all."
          slide_template gen clock completion_order = none) ∧
      phase2_call_count "Planning output with no briefs at all." = 0) :=
  ⟨by decide, zero_briefs_aborts "Planning output with no briefs at all." (by decide)⟩

/-- C6: the assembled document is exactly the fixed head (with the four
extracted sections), then one rendered block per `UnitResult` of the batch
in batch order — the batch being sorted by `slide_number` in ascending
order — and then the fixed production-notes closing section (so the
document is never truncated by failures); the block of a failed unit is the
delimited error block naming its `slide_number` and its error message. -/
theorem assembled_document_structure (master_output : String)
    (slide_briefs : List SlideBrief) (brand_and_design slide_template : String)
    (gen : Nat → String → Except String (List Part)) (clock : Nat → ℚ × ℚ)
    (completion_order : List Nat) :
    assemble_final_document master_output
        (run_parallel_slide_agents slide_briefs brand_and_design slide_template gen clock
          completion_order)
      = docHead master_output
        ++ String.join ((run_parallel_slide_agents slide_briefs brand_and_design
            slide_template gen clock completion_order).map renderBlock)
        ++ productionNotes ∧
    List.Sorted (· ≤ ·)
      ((run_parallel_slide_agents slide_briefs brand_and_design slide_template gen clock
          completion_order).map (fun r => r.slide_number)) ∧
    (∀ r ∈ run_parallel_slide_agents slide_briefs brand_and_design slide_template gen
        clock completion_order,
      r.success = false → renderBlock r =
        "\n### SLIDE " ++ toString r.slide_number ++ ": ERROR\n\n**Error:** "
          ++ r.error.getD "Failed to generate" ++ "\n\n---\n\n") := by
  refine ⟨?_, run_parallel_sorted _ _ _ _ _ _, ?_⟩
  · unfold assemble_final_document
    rw [foldl_append_renderBlock]
  · intro r _ hfail
    simp [renderBlock, hfail]

/-- C8: the reported speedup statistic is the sum of the per-unit elapsed
times divided by their maximum (the collection/sort of the batch preserves
both). -/
theorem speedup_sum_div_max (slide_briefs : List SlideBrief)
    (brand_and_design slide_template : String)
    (gen : Nat → String → Except String (List Part)) (clock : Nat → ℚ × ℚ)
    (completion_order : List Nat) (M : ℚ)
    (horder : completion_order.Perm (List.range slide_briefs.length))
    (hM : pyMax ((List.range slide_briefs.length).map
        (fun i => (clock i).2 - (clock i).1)) = some M)
    (hpos : 0 < M) :
    parallel_speedup (run_parallel_slide_agents slide_briefs brand_and_design
        slide_template gen clock completion_order)
      = some (((List.range slide_briefs.length).map
          (fun i => (clock i).2 - (clock i).1)).sum / M) := by
  have hts : ((run_parallel_slide_agents slide_briefs brand_and_design slide_template gen
      clock completion_order).map (fun r => r.elapsed_time)).Perm
      ((List.range slide_briefs.length).map (fun i => (clock i).2 - (clock i).1)) := by
    have h1 := (run_parallel_perm slide_briefs brand_and_design slide_template gen clock
      completion_order horder).map (fun r => r.elapsed_time)
    rwa [submitted_map_elapsed] at h1
  have hmax := (pyMax_perm hts).trans hM
  have hsum := hts.sum_eq
  unfold parallel_speedup
  rw [hmax, hsum]

theorem wClock_elapsed_list :
    (List.range wBriefs.length).map (fun i => (wClock i).2 - (wClock i).1)
      = [1, 2] := by
  have hlen : wBriefs.length = 2 := by decide
  rw [hlen]
  norm_num [wClock, List.range_succ]

theorem wClock_pyMax :
    pyMax ((List.range wBriefs.length).map (fun i => (wClock i).2 - (wClock i).1))
      = some 2 := by
  rw [wClock_elapsed_list]
  norm_num [pyMax]

theorem speedup_sum_div_max_witness :
    (([1, 0] : List Nat).Perm (List.range wBriefs.length)) ∧
    (pyMax ((List.range wBriefs.length).map
        (fun i => (wClock i).2 - (wClock i).1)) = some 2) ∧
    ((0 : ℚ) < 2) ∧
    (parallel_speedup (run_parallel_slide_agents wBriefs "bd" "tmpl" wGen wClock [1, 0])
      = some (((List.range wBriefs.length).map
          (fun i => (wClock i).2 - (wClock i).1)).sum / 2)) :=
  ⟨by decide, wClock_pyMax, by norm_num,
   speedup_sum_div_max wBriefs "bd" "tmpl" wGen wClock [1, 0] 2 (by decide) wClock_pyMax
     (by norm_num)⟩

/-- C10: the dict `run_slide_agent` returns carries the slide number it was
called with, a non-negative elapsed time (for monotone clock readings), and
`success` true exactly when `output` is present; a successful generation
call yields `success = true`, the joined non-reasoning output and no
`error` key; a raising call yields `success = false`, `output = None` and
`error = str(e)`. -/
theorem run_slide_agent_result_shape (slide_number : Nat)
    (slide_brief brand_and_design slide_template : String)
    (gen : String → Except String (List Part)) (t0 t1 : ℚ) (h : t0 ≤ t1) :
    (run_slide_agent slide_number slide_brief brand_and_design slide_template gen
        t0 t1).slide_number = slide_number ∧
    0 ≤ (run_slide_agent slide_number slide_brief brand_and_design slide_template gen
        t0 t1).elapsed_time ∧
    ((run_slide_agent slide_number slide_brief brand_and_design slide_template gen
        t0 t1).success = true ↔
      (run_slide_agent slide_number slide_brief brand_and_design slide_template gen
        t0 t1).output ≠ none) ∧
    (∀ parts, gen (build_slide_prompt slide_number brand_and_design slide_brief
        slide_template) = Except.ok parts →
      run_slide_agent slide_number slide_brief brand_and_design slide_template gen t0 t1
        = ⟨slide_number,
            some (String.intercalate "\n\n"
              ((parts.filter (fun p => !p.thought)).map Part.text)),
            t1 - t0, true, none⟩) ∧
    (∀ e, gen (build_slide_prompt slide_number brand_and_design slide_brief
        slide_template) = Except.error e →
      run_slide_agent slide_number slide_brief brand_and_design slide_template gen t0 t1
        = ⟨slide_number, none, t1 - t0, false, some e⟩) := by
  have helap := elapsed_run_slide_agent slide_number slide_brief brand_and_design
    slide_template gen t0 t1
  refine ⟨?_, ?_, ?_, ?_, ?_⟩
  · unfold run_slide_agent
    cases gen (build_slide_prompt slide_number brand_and_design slide_brief
      slide_template) <;> rfl
  · rw [helap]
    linarith
  · unfold run_slide_agent
    cases gen (build_slide_prompt slide_number brand_and_design slide_brief
      slide_template) <;> simp
  · intro parts hok
    unfold run_slide_agent
    rw [hok]
  · intro e herr
    unfold run_slide_agent
    rw [herr]

theorem run_slide_agent_result_shape_witness :
    ((1 : ℚ) ≤ 2) ∧
    ((run_slide_agent 5 "brief" "bd" "tmpl"
        (fun _ => Except.ok [⟨false, "body"⟩]) 1 2).slide_number = 5 ∧
      0 ≤ (run_slide_agent 5 "brief" "bd" "tmpl"
        (fun _ => Except.ok [⟨false, "body"⟩]) 1 2).elapsed_time ∧
      ((run_slide_agent 5 "brief" "bd" "tmpl"
          (fun _ => Except.ok [⟨false, "body"⟩]) 1 2).success = true ↔
        (run_slide_agent 5 "brief" "bd" "tmpl"
          (fun _ => Except.ok [⟨false, "body"⟩]) 1 2).output ≠ none) ∧
      (∀ parts, (fun _ => Except.ok [⟨false, "body"⟩] :
          String → Except String (List Part))
          (build_slide_prompt 5 "bd" "brief" "tmpl") = Except.ok parts →
        run_slide_agent 5 "brief" "bd" "tmpl"
            (fun _ => Except.ok [⟨false, "body"⟩]) 1 2
          = ⟨5, some (String.intercalate "\n\n"
              ((parts.filter (fun p => !p.thought)).map Part.text)),
              2 - 1, true, none⟩) ∧
      (∀ e, (fun _ => Except.ok [⟨false, "body"⟩] :
          String → Except String (List Part))
          (build_slide_prompt 5 "bd" "brief" "tmpl") = Except.error e →
        run_slide_agent 5 "brief" "bd" "tmpl"
            (fun _ => Except.ok [⟨false, "body"⟩]) 1 2
          = ⟨5, none, 2 - 1, false, some e⟩)) :=
  ⟨by decide,
   run_slide_agent_result_shape 5 "brief" "bd" "tmpl"
     (fun _ => Except.ok [⟨false, "body"⟩]) 1 2 (by decide)⟩

/-! ### C4: the scan equals the positional reading -/

theorem firstBoundary_min {l : List Char} {j : Nat} (hj : j < firstBoundary l) :
    boundaryAt (l.drop j) = false := by
  induction l generalizing j with
  | nil => simp [firstBoundary] at hj
  | cons c r ih =>
    by_cases hb : boundaryAt (c :: r) = true
    · simp [firstBoundary, hb] at hj
    · have hb' : boundaryAt (c :: r) = false := by simpa using hb
      rw [firstBoundary, hb'] at hj
      simp only [Bool.false_eq_true, if_false] at hj
      cases j with
      | zero => simpa using hb'
      | succ j' =>
        rw [List.drop_succ_cons]
        exact ih (by omega)

theorem litMatch_markerHead_false {c : Char} (t : List Char) (hc : ¬('#' = c)) :
    litMatch markerHead (c :: t) = false := by
  simp [markerHead, litMatch, hc]

theorem drop_markerHead_append (p : Nat) (h9 : 9 ≤ p) (X : List Char) :
    (markerHead ++ X).drop p = X.drop (p - 9) := by
  have h0 : p = markerHead.length + (p - 9) := by
    simp only [markerHead, List.length_cons, List.length_nil]
    omega
  conv_lhs => rw [h0]
  rw [List.drop_append]

theorem no_marker_inside {s : List Char} {n len : Nat} (h : markerAt s = some (n, len))
    {p : Nat} (hp0 : 0 < p) (hplen : p < len) : markerAt (s.drop p) = none := by
  obtain ⟨ds, w, rfl, hne, hdig, hlen, -⟩ := markerAt_decomp h
  have hfalse :
      litMatch markerHead ((markerHead ++ (ds ++ (briefTail ++ w))).drop p) = false := by
    by_cases hp9 : p < 9
    · have hp8 : p ≤ 8 := by omega
      interval_cases p <;> simp [markerHead, litMatch]
    · rw [drop_markerHead_append p (by omega)]
      by_cases hpd : p - 9 < ds.length
      · rw [List.drop_append_of_le_length (by omega)]
        have hq : p - 9 < ds.length := hpd
        rw [List.drop_eq_getElem_cons hq, List.cons_append]
        apply litMatch_markerHead_false
        intro hsharp
        have hcd : (ds[p - 9]).isDigit := hdig _ (List.getElem_mem hq)
        rw [← hsharp] at hcd
        simp [Char.isDigit] at hcd
      · have hds : p - 9 = ds.length + (p - 9 - ds.length) := by omega
        rw [hds, List.drop_append]
        have hq : p - 9 - ds.length < briefTail.length := by
          simp only [briefTail, List.length_cons, List.length_nil]
          omega
        rw [List.drop_append_of_le_length (Nat.le_of_lt hq)]
        rw [List.drop_eq_getElem_cons hq, List.cons_append]
        apply litMatch_markerHead_false
        intro hsharp
        have hmem : briefTail[p - 9 - ds.length] ∈ briefTail := List.getElem_mem hq
        rw [← hsharp] at hmem
        have : ∀ c ∈ briefTail, c ≠ '#' := by decide
        exact this '#' hmem rfl
  unfold markerAt
  rw [hfalse]
  simp

theorem markerPositions_decomp (l : List Char) (B : Nat) (hB : B ≤ l.length) :
    markerPositions l
      = ((List.range B).filter (fun p => (markerAt (l.drop p)).isSome))
        ++ (markerPositions (l.drop B)).map (· + B) := by
  unfold markerPositions
  conv_lhs => rw [show l.length = B + (l.length - B) from by omega]
  rw [List.range_add, List.filter_append, List.filter_map, List.length_drop]
  congr 1
  have h1 : ((fun p => (markerAt (l.drop p)).isSome) ∘ (fun x => B + x))
      = (fun p => (markerAt ((l.drop B).drop p)).isSome) := by
    funext x
    simp only [Function.comp_apply]
    rw [List.drop_drop]
  have h2 : (fun x : Nat => B + x) = (· + B) := by
    funext x; omega
  rw [h1, h2]

theorem filter_range_eq_single (f : Nat → Bool) (B : Nat) (hB : 0 < B)
    (h0 : f 0 = true) (hrest : ∀ p, 0 < p → p < B → f p = false) :
    (List.range B).filter f = [0] := by
  obtain ⟨B', rfl⟩ : ∃ B', B = B' + 1 := ⟨B - 1, by omega⟩
  rw [List.range_succ_eq_map, List.filter_cons, h0]
  simp only [if_true]
  rw [List.filter_map]
  have hnil : (List.range B').filter (f ∘ Nat.succ) = [] := by
    rw [List.filter_eq_nil_iff]
    intro a ha
    rw [List.mem_range] at ha
    simp only [Function.comp_apply]
    rw [hrest (a + 1) (by omega) (by omega)]
    simp
  rw [hnil]
  rfl

theorem briefPairAt_shift (l : List Char) (B q : Nat) :
    briefPairAt l (B + q) = briefPairAt (l.drop B) q := by
  unfold briefPairAt boundaryFrom
  rw [show l.drop (B + q) = (l.drop B).drop q from (List.drop_drop q B l).symm]
  cases hm : markerAt ((l.drop B).drop q) with
  | none => rfl
  | some v =>
    obtain ⟨n, len⟩ := v
    dsimp only
    have harg : B + q + len + firstBoundary (l.drop (B + q + len)) - (B + q)
        = q + len + firstBoundary ((l.drop B).drop (q + len)) - q := by
      rw [show (l.drop B).drop (q + len) = l.drop (B + (q + len)) from
        List.drop_drop _ _ _]
      rw [show B + (q + len) = B + q + len from by omega]
      omega
    rw [harg]

theorem scanBriefs_eq_spec_aux :
    ∀ (N : Nat) (l : List Char), l.length ≤ N →
      scanBriefs l = (markerPositions l).map (briefPairAt l) := by
  intro N
  induction N with
  | zero =>
    intro l hl
    have hnil : l = [] := by
      cases l with
      | nil => rfl
      | cons c r => simp at hl
    subst hnil
    simp [scanBriefs_nil, markerPositions]
  | succ N ih =>
    intro l hl
    cases l with
    | nil => simp [scanBriefs_nil, markerPositions]
    | cons c r =>
      cases hm : markerAt (c :: r) with
      | none =>
        rw [scanBriefs_cons_none hm, ih r (by simp at hl; omega)]
        rw [markerPositions_decomp (c :: r) 1 (by simp)]
        have hfilter :
            (List.range 1).filter (fun p => (markerAt ((c :: r).drop p)).isSome) = [] := by
          have : List.range 1 = [0] := rfl
          rw [this]
          simp [List.filter_cons, hm]
        rw [hfilter, List.nil_append, List.map_map]
        have hcomp : (briefPairAt (c :: r) ∘ (· + 1)) = briefPairAt r := by
          funext q
          simp only [Function.comp_apply]
          rw [show q + 1 = 1 + q from by omega, briefPairAt_shift (c :: r) 1 q]
          rfl
        rw [hcomp]
        rfl
      | some v =>
        obtain ⟨n, len⟩ := v
        rw [scanBriefs_cons_some hm]
        have hlen_le : len ≤ (c :: r).length := markerAt_le_length hm
        have hlen_pos : 0 < len := markerAt_pos hm
        have hfb_le : firstBoundary ((c :: r).drop len) ≤ (c :: r).length - len := by
          have := firstBoundary_le_length ((c :: r).drop len)
          simpa using this
        have hB_le : len + firstBoundary ((c :: r).drop len) ≤ (c :: r).length := by
          omega
        rw [markerPositions_decomp (c :: r) (len + firstBoundary ((c :: r).drop len)) hB_le]
        have hfilter :
            (List.range (len + firstBoundary ((c :: r).drop len))).filter
              (fun p => (markerAt ((c :: r).drop p)).isSome) = [0] := by
          apply filter_range_eq_single _ _ (by omega)
          · simp [hm]
          · intro p hp0 hpB
            by_cases hpl : p < len
            · rw [no_marker_inside hm hp0 hpl]
              rfl
            · have hb := firstBoundary_min (l := (c :: r).drop len) (j := p - len)
                (by omega)
              rw [List.drop_drop, show len + (p - len) = p from by omega] at hb
              unfold boundaryAt at hb
              rw [Bool.or_eq_false_iff] at hb
              exact hb.1
        rw [hfilter]
        rw [List.singleton_append, List.map_cons]
        have hdropB : (c :: r).drop (len + firstBoundary ((c :: r).drop len))
            = ((c :: r).drop len).drop (firstBoundary ((c :: r).drop len)) := by
          rw [List.drop_drop]
        congr 1
        · unfold briefPairAt boundaryFrom
          simp only [List.drop_zero, hm, Nat.zero_add, Nat.sub_zero]
        · rw [List.map_map]
          have hlength : (((c :: r).drop len).drop (firstBoundary ((c :: r).drop len))).length
              ≤ N := by
            have h4 : (((c :: r).drop len).drop
                (firstBoundary ((c :: r).drop len))).length ≤ r.length + 1 - len := by
              rw [List.length_drop, List.length_drop]
              simp only [List.length_cons]
              omega
            have h5 : r.length + 1 ≤ N + 1 := by simpa using hl
            omega
          rw [ih _ hlength]
          rw [hdropB]
          congr 1
          funext q
          simp only [Function.comp_apply]
          rw [show q + (len + firstBoundary ((c :: r).drop len))
              = (len + firstBoundary ((c :: r).drop len)) + q from by omega,
            briefPairAt_shift, hdropB]

theorem scanBriefs_eq_spec (l : List Char) :
    scanBriefs l = (markerPositions l).map (briefPairAt l) :=
  scanBriefs_eq_spec_aux l.length l (le_refl _)

theorem parse_slide_briefs_positional (master_output : String) :
    parse_slide_briefs master_output = specSlideBriefs master_output := by
  unfold parse_slide_briefs specSlideBriefs
  rw [scanBriefs_eq_spec, List.map_map]
  rfl

/-- C4: `parse_slide_briefs` returns exactly one brief per occurrence of the
brief-header marker, in scan-position order; each brief carries the `N`
declared in its own marker and its text is the (stripped) span from its
marker up to — but not including — the next marker, the next-steps marker,
or the end of the document, whichever comes first. -/
theorem parse_slide_briefs_spec (master_output : String) :
    parse_slide_briefs master_output = specSlideBriefs master_output :=
  parse_slide_briefs_positional master_output

/-! ### C7: duplicate markers -/

/-- A planning artifact declaring units 1, 2 and 2 (duplicate marker). -/
def dupDoc : String :=
  "## SLIDE 1 BRIEF:\nAAA\n## SLIDE 2 BRIEF:\nBBB\n## SLIDE 2 BRIEF:\nCCC"

/-- The three briefs the extractor produces for `dupDoc` (one per marker
occurrence; the duplicate is kept). -/
def dupBriefs : List SlideBrief :=
  [⟨1, "## SLIDE 1 BRIEF:\nAAA"⟩, ⟨2, "## SLIDE 2 BRIEF:\nBBB"⟩,
   ⟨2, "## SLIDE 2 BRIEF:\nCCC"⟩]

/-- A generation service giving submission `i` the distinct output `OUTi`. -/
def dupGen : Nat → String → Except String (List Part) :=
  fun i _ => Except.ok [⟨false, "OUT" ++ toString i⟩]

def dupClock : Nat → ℚ × ℚ := fun _ => (0, 1)

/-- The batch for `dupDoc` with in-order completion. -/
def dupResults : List UnitResult :=
  run_parallel_slide_agents dupBriefs (extract_brand_and_design_system dupDoc) "tmpl"
    dupGen dupClock [0, 1, 2]

theorem slide_number_run_slide_agent (slide_number : Nat)
    (slide_brief brand_and_design slide_template : String)
    (gen : String → Except String (List Part)) (t0 t1 : ℚ) :
    (run_slide_agent slide_number slide_brief brand_and_design slide_template gen
        t0 t1).slide_number = slide_number := by
  unfold run_slide_agent
  cases gen (build_slide_prompt slide_number brand_and_design slide_brief slide_template)
    <;> rfl

theorem submitted_map_slide_number (slide_briefs : List SlideBrief)
    (brand_and_design slide_template : String)
    (gen : Nat → String → Except String (List Part)) (clock : Nat → ℚ × ℚ) :
    (submittedResults slide_briefs brand_and_design slide_template gen clock).map
        (fun r => r.slide_number)
      = slide_briefs.map (fun b => b.slide_number) := by
  unfold submittedResults
  rw [List.map_map]
  have hfun : ((fun r : UnitResult => r.slide_number) ∘ (fun ib : Nat × SlideBrief =>
      run_slide_agent ib.2.slide_number ib.2.brief brand_and_design slide_template
        (gen ib.1) (clock ib.1).1 (clock ib.1).2))
      = ((fun b : SlideBrief => b.slide_number) ∘ Prod.snd) := by
    funext ib
    exact slide_number_run_slide_agent _ _ _ _ _ _ _
  rw [hfun, ← List.map_map, List.enum_map_snd]

/-- C7 counterexample: on the duplicate-marker artifact, with distinct
outputs `OUT1`/`OUT2` generated for the two unit-2 briefs, the assembled
document contains a block for *both* duplicates — the earlier-in-scan-order
unit-2 output `OUT1` is still present, which contradicts the claimed
last-write-wins policy (under which only `OUT2` would survive). -/
theorem assembler_not_last_write_wins_cex :
    parse_slide_briefs dupDoc = dupBriefs ∧
    dupResults.map (fun r => r.slide_number) = [1, 2, 2] ∧
    dupResults.map (fun r => r.output) = [some "OUT0", some "OUT1", some "OUT2"] ∧
    ("OUT1".toList <:+: (assemble_final_document dupDoc dupResults).toList) ∧
    ("OUT2".toList <:+: (assemble_final_document dupDoc dupResults).toList) := by
  refine ⟨?_, ?_, ?_, ?_, ?_⟩
  · rw [parse_slide_briefs_positional]
    decide
  · decide
  · decide
  · decide
  · decide

/-- C7 (amended): on the duplicate-marker artifact the extractor does not
crash and returns three briefs (one per marker occurrence, duplicates
included); the dispatcher still yields one result per brief (three results,
whose slide numbers are 1, 2 and 2 — both duplicates are kept rather than
collapsed last-write-wins), and the assembler emits one block per result
between the fixed head and the fixed closing section, so the document is
well-formed with its closing section present and indices that were never
declared simply get no block. -/
theorem duplicate_briefs_kept (brand_and_design slide_template : String)
    (gen : Nat → String → Except String (List Part)) (clock : Nat → ℚ × ℚ)
    (completion_order : List Nat)
    (horder : completion_order.Perm (List.range 3)) :
    parse_slide_briefs dupDoc = dupBriefs ∧
    (run_parallel_slide_agents dupBriefs brand_and_design slide_template gen clock
        completion_order).length = 3 ∧
    ((run_parallel_slide_agents dupBriefs brand_and_design slide_template gen clock
        completion_order).map (fun r => r.slide_number)).Perm [1, 2, 2] ∧
    assemble_final_document dupDoc
        (run_parallel_slide_agents dupBriefs brand_and_design slide_template gen clock
          completion_order)
      = docHead dupDoc
        ++ String.join ((run_parallel_slide_agents dupBriefs brand_and_design
            slide_template gen clock completion_order).map renderBlock)
        ++ productionNotes := by
  have hparse : parse_slide_briefs dupDoc = dupBriefs := by
    rw [parse_slide_briefs_positional]
    decide
  have hperm := run_parallel_perm dupBriefs brand_and_design slide_template gen clock
    completion_order horder
  refine ⟨hparse, ?_, ?_, ?_⟩
  · rw [hperm.length_eq, submittedResults_length]
    rfl
  · have h1 := hperm.map (fun r => r.slide_number)
    rw [submitted_map_slide_number] at h1
    exact h1
  · unfold assemble_final_document
    rw [foldl_append_renderBlock]

theorem duplicate_briefs_kept_witness :
    (([0, 1, 2] : List Nat).Perm (List.range 3)) ∧
    (parse_slide_briefs dupDoc = dupBriefs ∧
      (run_parallel_slide_agents dupBriefs "bd" "tmpl" dupGen dupClock
          [0, 1, 2]).length = 3 ∧
      ((run_parallel_slide_agents dupBriefs "bd" "tmpl" dupGen dupClock
          [0, 1, 2]).map (fun r => r.slide_number)).Perm [1, 2, 2] ∧
      assemble_final_document dupDoc
          (run_parallel_slide_agents dupBriefs "bd" "tmpl" dupGen dupClock [0, 1, 2])
        = docHead dupDoc
          ++ String.join ((run_parallel_slide_agents dupBriefs "bd" "tmpl" dupGen
              dupClock [0, 1, 2]).map renderBlock)
          ++ productionNotes) :=
  ⟨by decide,
   duplicate_briefs_kept "bd" "tmpl" dupGen dupClock [0, 1, 2] (by decide)⟩

end Deckr
